import Mathlib

/-!
Verification development for the operation-log compositing engine and the
session lifecycle of a PDF editing backend.  Definitions mirror the Python
sources: `app/services/pdf_service.py`, `app/api/v1/operations.py`,
`app/api/deps.py`, `app/api/v1/sessions.py`, `app/services/session_service.py`
and `app/services/storage_service.py`.  Numeric payload values are modelled
as rationals, timestamps as integers, and external effects (image decoding,
HTTP transport, the file system) as explicit parameters or state records.
-/

namespace PdfEditor

/-- Position dictionary carried in an operation payload.  Every key is
optional; the drawing code reads them with defaults, as in
`pos.get("x", 0)`, `pos.get("y", 0)`, `pos.get("width", 100)`,
`pos.get("height", 100)`. -/
structure Position where
  x? : Option ℚ := none
  y? : Option ℚ := none
  width? : Option ℚ := none
  height? : Option ℚ := none
deriving DecidableEq

/-- Payload of one operation (the `operation_data` JSON object), restricted
to the keys the compositor reads.  `none` models an absent key.
`data.get("page", 0)` defaults the page to 0, hence the default. -/
structure OpData where
  page : Int := 0
  image_id : Option String := none
  image_path : Option String := none
  position : Option Position := none
  new_position : Option Position := none
  rotation : Option ℚ := none
  opacity : Option ℚ := none
deriving DecidableEq

/-- One entry of the ordered operation list handed to
`apply_operations_to_pdf`: a type tag and its payload. -/
structure Operation where
  operation_type : String
  operation_data : OpData
deriving DecidableEq

/-- Entry of the `image_ops` dictionary built by `_create_page_overlay`.
The position field is two-level because the Python merge step
`image_ops[img_id]["position"] = data.get("new_position", ...)` can set the
key to `None`: `none` is an absent key, `some none` a key holding `None`
(which makes the later `pos.get` call raise), `some (some p)` a dictionary.
A fresh `add_image` never stores `None` there. -/
structure Placement where
  image_path : Option String
  position : Option (Option Position)
  rotation : Option ℚ
  opacity : Option ℚ
deriving DecidableEq

/-- State seeded by `add_image`: `image_ops[img_id] = data`. -/
def seedPlacement (d : OpData) : Placement :=
  { image_path := d.image_path
    position := d.position.map some
    rotation := d.rotation
    opacity := d.opacity }

/-- Lookup in the insertion-ordered dictionary `image_ops`, modelled as an
association list with one binding per key. -/
def lookupImage : List (String × Placement) → String → Option Placement
  | [], _ => none
  | pr :: rest, k => if pr.1 = k then some pr.2 else lookupImage rest k

/-- Assignment `image_ops[k] = v` on a Python dict: an existing key keeps
its insertion position and gets the new value, a new key is appended at
the end. -/
def setImage : List (String × Placement) → String → Placement → List (String × Placement)
  | [], k, v => [(k, v)]
  | pr :: rest, k, v =>
    if pr.1 = k then (k, v) :: rest else pr :: setImage rest k v

/-- Effect of a `move_image` on an existing entry, from
`image_ops[img_id]["position"] = data.get("new_position",
image_ops[img_id].get("position"))` followed by the conditional rotation
copy guarded by `"rotation" in data`. -/
def movePlacement (cur : Placement) (d : OpData) : Placement :=
  { cur with
    position := some (d.new_position <|> cur.position.join)
    rotation := if d.rotation.isSome then d.rotation else cur.rotation }

/-- One iteration of the reconciliation loop of `_create_page_overlay`
(lines 139-154): skip falsy image ids, let `add_image` seed or replace the
entry, let `move_image` patch an existing entry and fall through with a
warning otherwise; every other operation type matches no branch. -/
def reconcileStep (m : List (String × Placement)) (op : Operation) :
    List (String × Placement) :=
  match op.operation_data.image_id with
  | none => m
  | some img_id =>
    if img_id = "" then m
    else if op.operation_type = "add_image" then
      setImage m img_id (seedPlacement op.operation_data)
    else if op.operation_type = "move_image" then
      match lookupImage m img_id with
      | some cur => setImage m img_id (movePlacement cur op.operation_data)
      | none => m
    else m

/-- The full reconciliation pass over one page subsequence of operations. -/
def reconcilePage (ops : List Operation) : List (String × Placement) :=
  ops.foldl reconcileStep []

/-- Arguments of one successful `drawImage` call: resolved path and the
geometry read with defaults (x 0, y 0, width 100, height 100, rotation 0,
opacity 1). -/
structure DrawnImage where
  image_path : String
  x : ℚ
  y : ℚ
  width : ℚ
  height : ℚ
  rotation : ℚ
  opacity : ℚ
deriving DecidableEq

/-- Outcome of processing one placement inside the drawing loop: `skip`
covers the missing-path `continue` and a caught `drawImage` failure,
`crash` an exception outside the inner try (a `None` position dictionary),
which aborts the whole overlay. -/
inductive DrawStep where
  | skip
  | drawn (img : DrawnImage)
  | crash
deriving DecidableEq

/-- Geometry extraction and the guarded `drawImage` call for one placement
whose path is truthy and whose position dictionary is not `None`.  The
`drawOk` parameter models whether the external image read and draw succeed
for a given path; a failure is caught by the inner try and skipped. -/
def drawAttempt (drawOk : String → Bool) (path : String) (p : Position)
    (pl : Placement) : DrawStep :=
  let x := p.x?.getD 0
  let y := p.y?.getD 0
  let w := p.width?.getD 100
  let h := p.height?.getD 100
  let rotation := pl.rotation.getD 0
  let opacity := pl.opacity.getD 1
  if drawOk path then DrawStep.drawn ⟨path, x, y, w, h, rotation, opacity⟩
  else DrawStep.skip

/-- Processing of one placement in the drawing loop of
`_create_page_overlay` (lines 163-204): a falsy `image_path` is skipped
before the position is read; a position key holding `None` then raises
outside the inner try. -/
def drawOne (drawOk : String → Bool) (pl : Placement) : DrawStep :=
  match pl.image_path with
  | none => DrawStep.skip
  | some path =>
    if path = "" then DrawStep.skip
    else
      match pl.position with
      | some none => DrawStep.crash
      | none => drawAttempt drawOk path {} pl
      | some (some p) => drawAttempt drawOk path p pl

/-- The drawing loop over the reconciled placements, in insertion order.
A `crash` escapes the loop and the surrounding try returns `None`. -/
def runDraw (drawOk : String → Bool) : List Placement → Option (List DrawnImage)
  | [] => some []
  | pl :: rest =>
    match drawOne drawOk pl with
    | DrawStep.crash => none
    | DrawStep.skip => runDraw drawOk rest
    | DrawStep.drawn img => (runDraw drawOk rest).map (fun l => img :: l)

/-- Embedding of `_create_page_overlay` for one page: `none` models the
Python `None` return, produced when `image_ops` is empty or when an
exception escapes to the outer handler.  A saved reportlab canvas always
contains at least one page, so a `some` result is a one-page overlay
holding the successfully drawn images in insertion order. -/
def create_page_overlay (drawOk : String → Bool) (ops : List Operation) :
    Option (List DrawnImage) :=
  let image_ops := reconcilePage ops
  if image_ops.isEmpty then none
  else runDraw drawOk (image_ops.map (fun pr => pr.2))

/-- Result for one output page of `apply_operations_to_pdf`: the original
page copied unchanged, or the original page merged with an overlay. -/
inductive PageOut (α : Type) where
  | copied (orig : α)
  | merged (orig : α) (overlay : List DrawnImage)
deriving DecidableEq

/-- The source page an output page was produced from. -/
def PageOut.orig {α : Type} : PageOut α → α
  | PageOut.copied p => p
  | PageOut.merged p _ => p

/-- The `ops_by_page` bucket for page index `p` (lines 60-76): operations
whose type is supported and whose declared page equals `p`.  The range
check `0 <= page < len(pages)` is implied for the indices the assembler
actually visits. -/
def opsForPage (operations : List Operation) (p : ℕ) : List Operation :=
  operations.filter (fun op =>
    (op.operation_type == "add_image" || op.operation_type == "move_image") &&
      op.operation_data.page == (p : Int))

/-- Per-page branch of the assembler loop (lines 78-109): a page with no
bucket, or whose overlay construction returned `None`, is copied
unchanged; otherwise the one-page overlay is merged onto it. -/
def processPage {α : Type} (drawOk : String → Bool) (pops : List Operation)
    (pg : α) : PageOut α :=
  if pops.isEmpty then PageOut.copied pg
  else
    match create_page_overlay drawOk pops with
    | none => PageOut.copied pg
    | some imgs => PageOut.merged pg imgs

/-- The assembler loop over the source pages, carrying the running page
index. -/
def applyAux {α : Type} (drawOk : String → Bool) (operations : List Operation) :
    ℕ → List α → List (PageOut α)
  | _, [] => []
  | p, pg :: rest =>
    processPage drawOk (opsForPage operations p) pg ::
      applyAux drawOk operations (p + 1) rest

/-- Embedding of `apply_operations_to_pdf`: pages are processed in source
order starting at index 0, and the writer receives exactly one page per
source page. -/
def apply_operations_to_pdf {α : Type} (drawOk : String → Bool) (pages : List α)
    (operations : List Operation) : List (PageOut α) :=
  applyAux drawOk operations 0 pages

/-! Geometry of the canvas transform built around each `drawImage` call
(`_create_page_overlay`, lines 177-200).  The canvas starts in the identity
state; the code translates to the placement center computed from the
flipped y coordinate, rotates by minus the rotation angle when it is
nonzero (`if rotation: c.rotate(-rotation)`, reportlab angles in degrees,
counterclockwise), and draws the image into the axis-aligned box from
`(-w/2, -h/2)` with width `w` and height `h` in the transformed frame. -/

/-- The y flip `pdf_y = page_height - y - h` translating the top-left-origin
caller coordinate into the bottom-left-origin rendering coordinate. -/
def y_render (page_height y h : ℝ) : ℝ := page_height - y - h

/-- Degrees to radians, the unit conversion reportlab performs inside
`Canvas.rotate`. -/
noncomputable def deg2rad (d : ℝ) : ℝ := d * Real.pi / 180

/-- Canvas coordinate of a point given in the local frame of one placement:
translation to the placement center followed by the conditional rotation by
minus the rotation angle.  Local point `(0, 0)` is the center of the drawn
image box, whose corners are `(± w/2, ± h/2)`. -/
noncomputable def localToPage (page_height x y w h rotation : ℝ) (p : ℝ × ℝ) :
    ℝ × ℝ :=
  let pdf_y := page_height - y - h
  let cx := x + w / 2
  let cy := pdf_y + h / 2
  let a := if rotation = 0 then 0 else -(deg2rad rotation)
  (cx + p.1 * Real.cos a - p.2 * Real.sin a,
   cy + p.1 * Real.sin a + p.2 * Real.cos a)

/-! Embedding of the append endpoint `create_operation` in
`app/api/v1/operations.py`.  The session token, expiry and edit-permission
gates run before this logic; the claim under verification concerns the
sequence-number assignment and the operation-type validation, modelled over
the per-session operation log. -/

/-- One persisted row of the `edit_operations` table, restricted to the
columns the append logic touches. -/
structure EditOperationRow where
  operation_order : ℕ
  operation_type : String
  operation_data : OpData
deriving DecidableEq

/-- SQL `MAX(operation_order)` over the rows of one session: `NULL` on an
empty log, otherwise the maximum. -/
def maxOrder : List EditOperationRow → Option ℕ
  | [] => none
  | r :: rest =>
    match maxOrder rest with
    | none => some r.operation_order
    | some m => some (max r.operation_order m)

/-- The five recognized operation types (`valid_types`, line 42). -/
def valid_types : List String :=
  ["add_image", "move_image", "resize_image", "delete_image", "rotate_image"]

/-- Embedding of the body of `create_operation` (lines 34-82): compute
`next_order = (max_order or 0) + 1`, reject an unrecognized type with a
400 validation error before anything is persisted, otherwise append the
new row.  The Python `or` collapses both `NULL` and `0` to `0`, exactly
as `Option.getD` does on this log model.  The add-image path rewriting of
`image_path` is independent of ordering and validation and is not
modelled. -/
def create_operation (log : List EditOperationRow) (op_type : String)
    (data : OpData) : List EditOperationRow × Except String EditOperationRow :=
  let next_order := (maxOrder log).getD 0 + 1
  if valid_types.contains op_type then
    let row : EditOperationRow := ⟨next_order, op_type, data⟩
    (log ++ [row], Except.ok row)
  else (log, Except.error ("Invalid operation type"))

/-! Embedding of the session lifecycle: `verify_session_token` in
`app/api/deps.py` and `commit_session` in `app/api/v1/sessions.py`. -/

/-- One row of the `edit_sessions` table, restricted to the columns the
verified claims touch.  Timestamps are integers under the usual order. -/
structure EditSessionRec where
  session_token : String
  status : String
  expires_at : Int
  file_id : ℕ
  callback_url : Option String := none
  callback_status : Option String := none
  completed_at : Option Int := none
  edited_file_path : Option String := none
deriving DecidableEq

/-- Error outcomes of `verify_session_token`: `notFound` is the 404 raised
when no row matches `(id, token, status = "active")`, `gone` the 410 raised
on lazy expiry. -/
inductive AccessError where
  | notFound
  | gone
deriving DecidableEq

/-- Embedding of `verify_session_token` (lines 32-63) as a transition on
the stored session row: the query requires the token to match and the
status to be `active`; a matching row past its expiry has its status set
to `expired` and committed before the 410 is raised.  The returned first
component is the persisted row after the call. -/
def verify_session_token (now : Int) (s : EditSessionRec) (token : String) :
    EditSessionRec × Except AccessError EditSessionRec :=
  if s.status = "active" ∧ s.session_token = token then
    if s.expires_at < now then
      ({ s with status := "expired" }, Except.error AccessError.gone)
    else (s, Except.ok s)
  else (s, Except.error AccessError.notFound)

/-- Storage state visible to `StorageService`: the set of stored file
paths and the set of existing session temp directories. -/
structure Storage where
  files : List String
  tempDirs : List ℕ
deriving DecidableEq

/-- Embedding of `StorageService.file_exists`. -/
def file_exists (st : Storage) (p : String) : Bool := decide (p ∈ st.files)

/-- Embedding of `StorageService.delete_file`: removing an absent file is a no-op. -/
def delete_file (st : Storage) (p : String) : Storage :=
  { st with files := st.files.filter (fun q => q ≠ p) }

/-- Writing a file creates it if absent. -/
def write_file (st : Storage) (p : String) : Storage :=
  { st with files := if p ∈ st.files then st.files else st.files ++ [p] }

/-- Embedding of `StorageService.delete_session_temp_dir`: removes the whole directory
of the session, a no-op when absent. -/
def delete_session_temp_dir (st : Storage) (sid : ℕ) : Storage :=
  { st with tempDirs := st.tempDirs.filter (fun q => q ≠ sid) }

/-- Embedding of `StorageService.get_edited_path` for the output document of a
session. -/
def get_edited_path (sid : ℕ) (filename : String) : String :=
  "edited/" ++ (toString sid) ++ "_" ++ filename

/-- One row of the `files` table, restricted to the columns the commit
handler reads. -/
structure FileRec where
  file_path : String
  filename : String
deriving DecidableEq

/-- Error outcomes of `commit_session`: the two session access errors, the
file-id mismatch 400 and the missing file row 404. -/
inductive CommitError where
  | notFound
  | gone
  | fileMismatch
  | fileNotFound
deriving DecidableEq

/-- Embedding of `commit_session` (lines 160-263).  The gates run in source
order: `verify_session_token`, the file-id match, the file-row fetch.  Then
`apply_operations_to_pdf` writes the output document at
`get_edited_path session_id ("edited_" ++ filename)`, the session row is
updated to `completed`, the webhook (when a callback URL is configured)
runs with outcome `webhook_ok` and its delivery status is stored, the
original upload is deleted when present, and the session temp directory is
removed.  The result triple is the persisted session row, the final
storage state and the response carrying the output path. -/
def commit_session (now : Int) (sid : ℕ) (file_id : ℕ) (token : String)
    (s : EditSessionRec) (dbfile : Option FileRec) (webhook_ok : Bool)
    (st : Storage) : EditSessionRec × Storage × Except CommitError String :=
  let v := verify_session_token now s token
  match v.2 with
  | Except.error AccessError.notFound => (v.1, st, Except.error CommitError.notFound)
  | Except.error AccessError.gone => (v.1, st, Except.error CommitError.gone)
  | Except.ok s0 =>
    if s0.file_id ≠ file_id then (s0, st, Except.error CommitError.fileMismatch)
    else
      match dbfile with
      | none => (s0, st, Except.error CommitError.fileNotFound)
      | some f =>
        let edited_path := get_edited_path sid ("edited_" ++ f.filename)
        let st1 := write_file st edited_path
        let s1 := { s0 with
          status := "completed"
          completed_at := some now
          edited_file_path := some edited_path }
        let cs : String := if webhook_ok then "success" else "failed"
        let s2 :=
          match s1.callback_url with
          | some _ => { s1 with callback_status := some cs }
          | none => s1
        let st2 := if file_exists st1 f.file_path then delete_file st1 f.file_path else st1
        let st3 := delete_session_temp_dir st2 sid
        (s2, st3, Except.ok edited_path)

/-! Embedding of the webhook notifier in `app/services/session_service.py`.
The HTTP transport is modelled by a map from attempt index to the response
status code, `none` standing for a timeout or network error (the caught
exception path). -/

/-- Result of one `send_webhook` call: the code returns
`response.status_code in [200, 201, 202, 204]` and `False` on any caught
exception. -/
def send_webhook (resp : Option ℕ) : Bool :=
  match resp with
  | some code => [200, 201, 202, 204].contains code
  | none => false

/-- Default of `settings.WEBHOOK_RETRY_ATTEMPTS` in `app/config.py`. -/
def WEBHOOK_RETRY_ATTEMPTS : ℕ := 3

/-- The retry loop of `retry_webhook`: first argument the current attempt
index, second the number of attempts left.  A success returns immediately;
after a failure the code sleeps `2 ** attempt` seconds unless this was the
last attempt (`attempt < max_retries - 1`).  The second component collects
the sleep durations in order. -/
def retryGo (responses : ℕ → Option ℕ) : ℕ → ℕ → Bool × List ℕ
  | _, 0 => (false, [])
  | attempt, k + 1 =>
    if send_webhook (responses attempt) then (true, [])
    else if k = 0 then (false, [])
    else
      let r := retryGo responses (attempt + 1) k
      (r.1, 2 ^ attempt :: r.2)

/-- The Python default `max_retries = max_retries or
settings.WEBHOOK_RETRY_ATTEMPTS` collapses both `None` and `0` to the
configured default. -/
def effectiveRetries (m : Option ℕ) : ℕ :=
  match m with
  | none => WEBHOOK_RETRY_ATTEMPTS
  | some 0 => WEBHOOK_RETRY_ATTEMPTS
  | some (k + 1) => k + 1

/-- Embedding of `retry_webhook` (lines 74-98): the overall result and the
list of backoff sleeps performed between consecutive failed attempts. -/
def retry_webhook (responses : ℕ → Option ℕ) (max_retries : Option ℕ) :
    Bool × List ℕ :=
  retryGo responses 0 (effectiveRetries max_retries)

/-! Concrete data used by counterexamples and witnesses. -/

/-- An `add_image` for identifier A on page 0. -/
def c1add : Operation :=
  { operation_type := "add_image",
    operation_data := { page := 0, image_id := some ("A"), image_path := some ("imgA.png"),
                        position := some ⟨some 10, some 20, some 100, some 50⟩ } }

/-- A `delete_image` for identifier A on page 0. -/
def c1del : Operation :=
  { operation_type := "delete_image",
    operation_data := { page := 0, image_id := some ("A") } }

/-- The draw call produced by `c1add` alone. -/
def c1drawn : DrawnImage := ⟨"imgA.png", 10, 20, 100, 50, 0, 1⟩

/-- A sample operation log with maximum sequence number 5. -/
def c2log : List EditOperationRow := [⟨1, "add_image", {}⟩, ⟨5, "move_image", {}⟩]

/-- A `move_image` for identifier A to x 200. -/
def c4mv : Operation :=
  { operation_type := "move_image",
    operation_data := { page := 0, image_id := some ("A"),
                        new_position := some ⟨some 200, some 20, some 100, some 50⟩ } }

/-- An `add_image` for identifier B carrying no `image_path` key. -/
def c5add : Operation :=
  { operation_type := "add_image",
    operation_data := { page := 0, image_id := some ("B"),
                        position := some ⟨some 1, some 2, some 3, some 4⟩ } }

/-- A session in the terminal `completed` state. -/
def c6sess : EditSessionRec :=
  { session_token := "tok", status := "completed", expires_at := 100, file_id := 3 }

/-- A sample storage state holding one upload and one temp directory. -/
def c6st : Storage := { files := ["uploads/3_a.pdf"], tempDirs := [7] }

/-- An active session whose expiry has passed at time 100. -/
def c7sess : EditSessionRec :=
  { session_token := "tok", status := "active", expires_at := 10, file_id := 3 }

/-- An operation aimed at page 5 of a shorter document. -/
def c8bad : Operation :=
  { operation_type := "add_image",
    operation_data := { page := 5, image_id := some ("Z"), image_path := some ("z.png") } }

/-- A placement whose backing image fails to draw. -/
def c8pl : Placement :=
  { image_path := some ("gone.png"), position := none, rotation := none, opacity := none }

/-- An active session with a callback URL, not yet expired at time 50. -/
def c10sess : EditSessionRec :=
  { session_token := "tok", status := "active", expires_at := 100, file_id := 3,
    callback_url := some ("http://cb.example/hook") }

/-- The uploaded source document row of `c10sess`. -/
def c10file : FileRec := { file_path := "uploads/3_a.pdf", filename := "a.pdf" }

/-- Storage before the sample commit: source upload and temp directory of
session 7 present. -/
def c10st : Storage := { files := ["uploads/3_a.pdf"], tempDirs := [7] }

/-! Helper lemmas about the reconciliation dictionary. -/

theorem lookup_setImage_self (m : List (String × Placement)) (k : String) (v : Placement) :
    lookupImage (setImage m k v) k = some v := by
  induction m with
  | nil => simp [setImage, lookupImage]
  | cons pr rest ih =>
    by_cases h : pr.1 = k
    · simp [setImage, h, lookupImage]
    · simp [setImage, h, lookupImage, ih]

theorem lookup_setImage_ne (m : List (String × Placement)) (k j : String)
    (v : Placement) (h : j ≠ k) :
    lookupImage (setImage m k v) j = lookupImage m j := by
  induction m with
  | nil =>
    simp only [setImage, lookupImage]
    rw [if_neg (fun hh => h (Eq.symm hh))]
  | cons pr rest ih =>
    by_cases hpk : pr.1 = k
    · subst hpk
      have hne : ¬ pr.1 = j := fun hh => h (Eq.symm hh)
      simp only [setImage, if_pos rfl, lookupImage]
      rw [if_neg hne, if_neg hne]
    · simp only [setImage, if_neg hpk, lookupImage]
      by_cases hpj : pr.1 = j
      · rw [if_pos hpj, if_pos hpj]
      · rw [if_neg hpj, if_neg hpj, ih]

theorem reconcilePage_append_one (ops : List Operation) (op : Operation) :
    reconcilePage (ops ++ [op]) = reconcileStep (reconcilePage ops) op := by
  simp [reconcilePage, List.foldl_append]

theorem reconcileStep_other (m : List (String × Placement)) (op : Operation)
    (h1 : op.operation_type ≠ "add_image") (h2 : op.operation_type ≠ "move_image") :
    reconcileStep m op = m := by
  unfold reconcileStep
  cases hid : op.operation_data.image_id with
  | none => rfl
  | some img_id =>
    by_cases he : img_id = ""
    · simp [he]
    · simp [he, h1, h2]

theorem lookup_reconcileStep_no_add (m : List (String × Placement)) (op : Operation)
    (id : String)
    (hna : op.operation_type = "add_image" → op.operation_data.image_id ≠ some id)
    (hm : lookupImage m id = none) :
    lookupImage (reconcileStep m op) id = none := by
  unfold reconcileStep
  cases hid : op.operation_data.image_id with
  | none => exact hm
  | some img_id =>
    dsimp only
    by_cases he : img_id = ""
    · rw [if_pos he]; exact hm
    · rw [if_neg he]
      by_cases ha : op.operation_type = "add_image"
      · rw [if_pos ha]
        have hne : id ≠ img_id := by
          intro hcon
          exact hna ha (by rw [hid, hcon])
        rw [lookup_setImage_ne _ _ _ _ hne]
        exact hm
      · rw [if_neg ha]
        by_cases hmv : op.operation_type = "move_image"
        · rw [if_pos hmv]
          cases hcu : lookupImage m img_id with
          | none => exact hm
          | some cur =>
            have hne : id ≠ img_id := by
              intro hcon
              rw [hcon, hcu] at hm
              exact Option.noConfusion hm
            rw [lookup_setImage_ne _ _ _ _ hne]
            exact hm
        · rw [if_neg hmv]; exact hm

theorem lookup_reconcile_no_add (ops : List Operation) (id : String)
    (h : ∀ op ∈ ops, op.operation_type = "add_image" →
      op.operation_data.image_id ≠ some id) :
    lookupImage (reconcilePage ops) id = none := by
  have haux : ∀ (l : List Operation) (m : List (String × Placement)),
      lookupImage m id = none →
      (∀ op ∈ l, op.operation_type = "add_image" →
        op.operation_data.image_id ≠ some id) →
      lookupImage (l.foldl reconcileStep m) id = none := by
    intro l
    induction l with
    | nil => intro m hm _; exact hm
    | cons op rest ih =>
      intro m hm hl
      simp only [List.foldl_cons]
      exact ih (reconcileStep m op)
        (lookup_reconcileStep_no_add m op id (hl op (by simp)) hm)
        (fun o ho => hl o (by simp [ho]))
  exact haux ops [] rfl h

/-! Helper lemmas about the drawing loop. -/

theorem runDraw_skip_middle (drawOk : String → Bool) (pl : Placement)
    (l1 l2 : List Placement) (h : drawOne drawOk pl = DrawStep.skip) :
    runDraw drawOk (l1 ++ pl :: l2) = runDraw drawOk (l1 ++ l2) := by
  induction l1 with
  | nil => simp [runDraw, h]
  | cons hd tl ih =>
    simp only [List.cons_append, runDraw, List.append_eq, ih]

/-! Helper lemmas about the assembler loop. -/

theorem orig_processPage {α : Type} (drawOk : String → Bool)
    (pops : List Operation) (pg : α) :
    (processPage drawOk pops pg).orig = pg := by
  unfold processPage
  by_cases h : pops.isEmpty
  · simp [h, PageOut.orig]
  · simp only [h, if_false]
    cases hov : create_page_overlay drawOk pops with
    | none => simp [PageOut.orig]
    | some imgs => simp [PageOut.orig]

theorem applyAux_map_orig {α : Type} (drawOk : String → Bool)
    (ops : List Operation) (p : ℕ) (pages : List α) :
    (applyAux drawOk ops p pages).map PageOut.orig = pages := by
  induction pages generalizing p with
  | nil => rfl
  | cons pg rest ih =>
    simp [applyAux, orig_processPage, ih]

theorem applyAux_get? {α : Type} (drawOk : String → Bool) (ops : List Operation)
    (pages : List α) (p i : ℕ) :
    (applyAux drawOk ops p pages).get? i =
      (pages.get? i).map (fun pg => processPage drawOk (opsForPage ops (p + i)) pg) := by
  induction pages generalizing p i with
  | nil => simp [applyAux]
  | cons pg rest ih =>
    cases i with
    | zero => simp [applyAux]
    | succ j =>
      simp only [applyAux, List.get?_cons_succ]
      rw [ih]
      have harith : p + 1 + j = p + (j + 1) := by omega
      rw [harith]

theorem applyAux_congr {α : Type} (drawOk : String → Bool)
    (ops1 ops2 : List Operation) (pages : List α) (p : ℕ)
    (h : ∀ q, p ≤ q → q < p + pages.length → opsForPage ops1 q = opsForPage ops2 q) :
    applyAux drawOk ops1 p pages = applyAux drawOk ops2 p pages := by
  induction pages generalizing p with
  | nil => rfl
  | cons pg rest ih =>
    simp only [applyAux]
    rw [h p (Nat.le_refl p) (by simp only [List.length_cons]; omega)]
    rw [ih (p + 1) (fun q hq1 hq2 => h q (by omega)
      (by simp only [List.length_cons]; omega))]

theorem opsForPage_middle_drop (l1 l2 : List Operation) (o : Operation) (q : ℕ)
    (h : ((o.operation_type == "add_image" || o.operation_type == "move_image") &&
      o.operation_data.page == (q : Int)) = false) :
    opsForPage (l1 ++ o :: l2) q = opsForPage (l1 ++ l2) q := by
  simp [opsForPage, List.filter_append, List.filter_cons, h]

/-- C1 counterexample: after `add_image` for identifier A followed by
`delete_image` for A, the placement seeded by the earlier add survives in
the reconciled state, and the committed page is merged with an overlay
still drawing A; the claim asserts no placement for A survives a delete. -/
theorem C1_counterexample :
    lookupImage (reconcilePage ([c1add, c1del])) ("A") =
      some (seedPlacement c1add.operation_data) ∧
    apply_operations_to_pdf (fun _ => true) [(0 : ℕ)] [c1add, c1del] =
      [PageOut.merged 0 [c1drawn]] := by
  exact ⟨by decide, by decide⟩

/-- C1 (amended): the compositor skips `delete_image` as an unsupported
operation type, at the page-bucketing stage and in the reconciliation
loop alike, so a delete leaves every placement from earlier operations
intact; an `add_image` for an identifier seeds or replaces that
identifier's placement solely from its own payload. -/
theorem C1_delete_image_unsupported {α : Type} (drawOk : String → Bool)
    (pages : List α) (ops l1 l2 : List Operation) (d a : Operation) (id : String)
    (hd : d.operation_type = "delete_image") :
    reconcilePage (ops ++ [d]) = reconcilePage ops ∧
    apply_operations_to_pdf drawOk pages (l1 ++ d :: l2) =
      apply_operations_to_pdf drawOk pages (l1 ++ l2) ∧
    (a.operation_type = "add_image" → a.operation_data.image_id = some id →
      id ≠ "" →
      lookupImage (reconcilePage (ops ++ [a])) id =
        some (seedPlacement a.operation_data)) := by
  refine ⟨?_, ?_, ?_⟩
  · rw [reconcilePage_append_one]
    exact reconcileStep_other _ _ (by rw [hd]; decide) (by rw [hd]; decide)
  · unfold apply_operations_to_pdf
    exact applyAux_congr _ _ _ _ _ (fun q _ _ =>
      opsForPage_middle_drop l1 l2 d q (by rw [hd]; rfl))
  · intro hat him hne
    rw [reconcilePage_append_one]
    unfold reconcileStep
    rw [him]
    dsimp only
    rw [if_neg hne, if_pos hat]
    exact lookup_setImage_self _ _ _

/-- C1 witness: evaluating the amended theorem on a concrete log shows the
delete leaving the reconciled state unchanged and a later add re-seeding
identifier A from its own payload. -/
theorem C1_witness :
    reconcilePage ([c1add, c4mv] ++ [c1del]) = reconcilePage [c1add, c4mv] ∧
    lookupImage (reconcilePage ([c1add, c1del] ++ [c1add])) ("A") =
      some (seedPlacement c1add.operation_data) := by
  have h := C1_delete_image_unsupported (fun _ => true) [(0 : ℕ)] [c1add, c4mv]
    [] [] c1del c1add ("A") (by decide)
  have h2 := C1_delete_image_unsupported (fun _ => true) [(0 : ℕ)] [c1add, c1del]
    [] [] c1del c1add ("A") (by decide)
  exact ⟨h.1, h2.2.2 (by decide) (by decide) (by decide)⟩

/-- C4: a `move_image` for an identifier with no prior `add_image` for that
identifier in the page subsequence leaves the reconciled placement state
unchanged (dropped, and the embedding is total, so no error is raised);
when a prior add exists, the move rewrites only the position key and, when
its payload carries one, the rotation, leaving the path, opacity and all
other identifiers untouched. -/
theorem C4_move_requires_prior_add (ops : List Operation) (mv : Operation)
    (id : String)
    (hmt : mv.operation_type = "move_image")
    (hmid : mv.operation_data.image_id = some id)
    (hne : id ≠ "") :
    ((∀ op ∈ ops, op.operation_type = "add_image" →
        op.operation_data.image_id ≠ some id) →
      reconcilePage (ops ++ [mv]) = reconcilePage ops) ∧
    (∀ cur, lookupImage (reconcilePage ops) id = some cur →
      lookupImage (reconcilePage (ops ++ [mv])) id =
        some (movePlacement cur mv.operation_data) ∧
      (∀ j, j ≠ id → lookupImage (reconcilePage (ops ++ [mv])) j =
        lookupImage (reconcilePage ops) j) ∧
      (movePlacement cur mv.operation_data).image_path = cur.image_path ∧
      (movePlacement cur mv.operation_data).opacity = cur.opacity ∧
      (movePlacement cur mv.operation_data).position =
        some (mv.operation_data.new_position <|> cur.position.join) ∧
      (mv.operation_data.rotation = none →
        (movePlacement cur mv.operation_data).rotation = cur.rotation) ∧
      (∀ r, mv.operation_data.rotation = some r →
        (movePlacement cur mv.operation_data).rotation = some r)) := by
  constructor
  · intro hnoadd
    rw [reconcilePage_append_one]
    have hlk := lookup_reconcile_no_add ops id hnoadd
    unfold reconcileStep
    rw [hmid]
    dsimp only
    rw [if_neg hne, if_neg (by rw [hmt]; decide), if_pos hmt, hlk]
  · intro cur hcur
    have hstep : reconcilePage (ops ++ [mv]) =
        setImage (reconcilePage ops) id (movePlacement cur mv.operation_data) := by
      rw [reconcilePage_append_one]
      unfold reconcileStep
      rw [hmid]
      dsimp only
      rw [if_neg hne, if_neg (by rw [hmt]; decide), if_pos hmt, hcur]
    refine ⟨?_, ?_, rfl, rfl, rfl, ?_, ?_⟩
    · rw [hstep]; exact lookup_setImage_self _ _ _
    · intro j hj; rw [hstep]; exact lookup_setImage_ne _ _ _ _ hj
    · intro hr; simp [movePlacement, hr]
    · intro r hr; simp [movePlacement, hr]

/-- C4 witness: evaluating the theorem on the concrete log consisting of an
add for A followed by a move of A to x 200. -/
theorem C4_witness :
    lookupImage (reconcilePage ([c1add] ++ [c4mv])) ("A") =
      some (movePlacement (seedPlacement c1add.operation_data)
        c4mv.operation_data) := by
  have h := (C4_move_requires_prior_add [c1add] c4mv ("A") (by decide) (by decide)
    (by decide)).2 (seedPlacement c1add.operation_data) (by decide)
  exact h.1

/-- C5 counterexample: a page whose single reconciled placement carries no
`image_path` yields an overlay with zero drawable images, yet the page is
merged with that blank overlay instead of being copied unchanged as the
claim asserts. -/
theorem C5_counterexample :
    apply_operations_to_pdf (fun _ => true) [(0 : ℕ)] [c5add] =
      [PageOut.merged 0 []] ∧
    PageOut.merged (0 : ℕ) ([] : List DrawnImage) ≠ PageOut.copied 0 := by
  exact ⟨by decide, by decide⟩

/-- C5 (amended): assembly preserves the source page count and page order
exactly; a page with no relevant operations, or whose overlay construction
returns `None` (reconciliation produced no images, or an exception escaped
to the outer handler), is copied unchanged; a page whose reconciliation
yields at least one placement is merged with the constructed overlay even
when that overlay contains zero drawable images. -/
theorem C5_assemble_preserves_pages {α : Type} (drawOk : String → Bool)
    (pages : List α) (ops : List Operation) :
    (apply_operations_to_pdf drawOk pages ops).map PageOut.orig = pages ∧
    (∀ i pg, pages.get? i = some pg →
      ((opsForPage ops i = [] ∨
          create_page_overlay drawOk (opsForPage ops i) = none) →
        (apply_operations_to_pdf drawOk pages ops).get? i =
          some (PageOut.copied pg)) ∧
      (∀ imgs, opsForPage ops i ≠ [] →
        create_page_overlay drawOk (opsForPage ops i) = some imgs →
        (apply_operations_to_pdf drawOk pages ops).get? i =
          some (PageOut.merged pg imgs))) := by
  refine ⟨applyAux_map_orig drawOk ops 0 pages, ?_⟩
  intro i pg hpg
  have hget := applyAux_get? drawOk ops pages 0 i
  rw [hpg] at hget
  simp only [Nat.zero_add, Option.map_some] at hget
  constructor
  · intro hcase
    unfold apply_operations_to_pdf
    rw [hget]
    rcases hcase with hemp | hnone
    · simp [processPage, hemp]
    · by_cases hemp2 : (opsForPage ops i).isEmpty
      · simp [processPage, hemp2]
      · simp [processPage, hemp2, hnone]
  · intro imgs hnonempty hsome
    unfold apply_operations_to_pdf
    rw [hget]
    have hemp : (opsForPage ops i).isEmpty = false := by
      cases hl : opsForPage ops i with
      | nil => exact absurd hl hnonempty
      | cons hd tl => rfl
    simp [processPage, hemp, hsome]

/-- C5 witness: on a two-page document with one operation aimed at page 0,
page order and count are preserved and page 1 is copied unchanged. -/
theorem C5_witness :
    (apply_operations_to_pdf (fun _ => true) [(0 : ℕ), 1] [c1add]).map
      PageOut.orig = [0, 1] ∧
    (apply_operations_to_pdf (fun _ => true) [(0 : ℕ), 1] [c1add]).get? 1 =
      some (PageOut.copied 1) := by
  have h := C5_assemble_preserves_pages (fun _ => true) [(0 : ℕ), 1] [c1add]
  exact ⟨h.1, (h.2 1 1 (by decide)).1 (Or.inl (by decide))⟩

/-- C8: per-placement resolution failures are local.  Every input yields
one output page per source page in order (no failure is fatal); an
operation whose page index is outside the document range is dropped from
every bucket without affecting any other operation; a placement whose
processing is skipped (missing or empty path, or a failing draw) is
removed from the drawing loop without affecting the remaining placements;
and the skip conditions cover exactly the missing-path and failed-draw
placements. -/
theorem C8_local_failures_recoverable {α : Type} (drawOk : String → Bool)
    (pages : List α) (ops : List Operation) :
    (apply_operations_to_pdf drawOk pages ops).map PageOut.orig = pages ∧
    (∀ l1 l2 (o : Operation),
      (o.operation_data.page < 0 ∨
        (pages.length : Int) ≤ o.operation_data.page) →
      apply_operations_to_pdf drawOk pages (l1 ++ o :: l2) =
        apply_operations_to_pdf drawOk pages (l1 ++ l2)) ∧
    (∀ (pl : Placement) (l1 l2 : List Placement),
      drawOne drawOk pl = DrawStep.skip →
      runDraw drawOk (l1 ++ pl :: l2) = runDraw drawOk (l1 ++ l2)) ∧
    (∀ pl : Placement, pl.image_path = none →
      drawOne drawOk pl = DrawStep.skip) ∧
    (∀ (pl : Placement) (path : String), pl.image_path = some path →
      path ≠ "" → drawOk path = false → pl.position ≠ some none →
      drawOne drawOk pl = DrawStep.skip) := by
  refine ⟨applyAux_map_orig drawOk ops 0 pages, ?_, ?_, ?_, ?_⟩
  · intro l1 l2 o ho
    unfold apply_operations_to_pdf
    apply applyAux_congr
    intro q hq0 hqlt
    apply opsForPage_middle_drop
    have hne : o.operation_data.page ≠ (q : Int) := by omega
    have hc : (o.operation_data.page == (q : Int)) = false :=
      beq_eq_false_iff_ne.mpr hne
    simp [hc]
  · intro pl l1 l2 h
    exact runDraw_skip_middle drawOk pl l1 l2 h
  · intro pl hp
    simp [drawOne, hp]
  · intro pl path hp hnp hfail hpos
    unfold drawOne
    rw [hp]
    dsimp only
    rw [if_neg hnp]
    cases hpp : pl.position with
    | none => simp [drawAttempt, hfail]
    | some po =>
      cases po with
      | none => exact absurd hpp hpos
      | some p => simp [drawAttempt, hfail]

/-- C8 witness: an out-of-range operation on a one-page document changes
nothing, and a placement whose draw fails is skipped. -/
theorem C8_witness :
    apply_operations_to_pdf (fun _ => true) [(0 : ℕ)] ([] ++ c8bad :: []) =
      apply_operations_to_pdf (fun _ => true) [(0 : ℕ)] ([] ++ []) ∧
    drawOne (fun _ => false) c8pl = DrawStep.skip := by
  constructor
  · exact (C8_local_failures_recoverable (fun _ => true) [(0 : ℕ)] []).2.1
      [] [] c8bad (by decide)
  · exact (C8_local_failures_recoverable (fun _ => false) [(0 : ℕ)] []).2.2.2.2
      c8pl ("gone.png") (by decide) (by decide) (by decide) (by decide)

/-- C2: a successful append stores the next sequence number
`max(existing) + 1`, which is 1 on an empty log, and an unrecognized
operation type fails with the validation error while leaving the log
unchanged. -/
theorem C2_append_assigns_next_order (log : List EditOperationRow) (t : String)
    (d : OpData) :
    (valid_types.contains t = true →
      create_operation log t d =
        (log ++ [⟨(maxOrder log).getD 0 + 1, t, d⟩],
          Except.ok ⟨(maxOrder log).getD 0 + 1, t, d⟩) ∧
      (log = [] → (maxOrder log).getD 0 + 1 = 1) ∧
      (∀ m, maxOrder log = some m → (maxOrder log).getD 0 + 1 = m + 1)) ∧
    (valid_types.contains t = false →
      create_operation log t d = (log, Except.error ("Invalid operation type"))) := by
  constructor
  · intro h
    have hmem : t ∈ valid_types := by simpa using h
    refine ⟨by simp [create_operation, hmem], ?_, ?_⟩
    · intro hl
      subst hl
      rfl
    · intro m hm
      rw [hm]
      rfl
  · intro h
    have hnot : t ∉ valid_types := by simpa using h
    simp [create_operation, hnot]

/-- C2 witness: on a log with maximum sequence number 5, a valid append is
assigned number 6, and an invalid kind is rejected with the log intact. -/
theorem C2_witness :
    create_operation c2log ("resize_image") {} =
      (c2log ++ [⟨6, "resize_image", {}⟩], Except.ok ⟨6, "resize_image", {}⟩) ∧
    create_operation c2log ("foo_image") {} =
      (c2log, Except.error ("Invalid operation type")) := by
  constructor
  · have h := (C2_append_assigns_next_order c2log ("resize_image") {}).1 (by decide)
    have h6 : (maxOrder c2log).getD 0 + 1 = 6 := by decide
    rw [h6] at h
    exact h.1
  · exact (C2_append_assigns_next_order c2log ("foo_image") {}).2 (by decide)

/-- Normal form of the canvas transform: the conditional rotation equals
the unconditional rotation by minus the angle in radians, because a zero
angle rotates by zero. -/
theorem localToPage_normal (ph x y w h rot : ℝ) (p : ℝ × ℝ) :
    localToPage ph x y w h rot p =
      (x + w / 2 + p.1 * Real.cos (-(deg2rad rot)) -
        p.2 * Real.sin (-(deg2rad rot)),
       y_render ph y h + h / 2 + p.1 * Real.sin (-(deg2rad rot)) +
        p.2 * Real.cos (-(deg2rad rot))) := by
  unfold localToPage y_render
  by_cases hr : rot = 0
  · subst hr
    simp [deg2rad]
  · rw [if_neg hr]

/-- C3: the placement center (local origin of the drawn box) lands at
`(x + width/2, y_render + height/2)` with `y_render = page_height - y -
height`; the screen position of the center is independent of the rotation
angle; at zero rotation the lower-left corner of the box lands at
`(x, y_render)`; the transform is a rotation about the placement center
(it preserves distance from the center for every angle); and at 180
degrees every local point is reflected through the center, so the center
itself stays fixed. -/
theorem C3_overlay_geometry (ph x y w h rot : ℝ) :
    localToPage ph x y w h rot (0, 0) = (x + w / 2, y_render ph y h + h / 2) ∧
    (∀ rot2, localToPage ph x y w h rot (0, 0) =
      localToPage ph x y w h rot2 (0, 0)) ∧
    localToPage ph x y w h 0 (-(w / 2), -(h / 2)) = (x, y_render ph y h) ∧
    (∀ p : ℝ × ℝ,
      ((localToPage ph x y w h rot p).1 - (x + w / 2)) ^ 2 +
        ((localToPage ph x y w h rot p).2 - (y_render ph y h + h / 2)) ^ 2 =
          p.1 ^ 2 + p.2 ^ 2) ∧
    (∀ p : ℝ × ℝ, localToPage ph x y w h 180 p =
      (x + w / 2 - p.1, y_render ph y h + h / 2 - p.2)) := by
  have hcenter : ∀ r : ℝ, localToPage ph x y w h r (0, 0) =
      (x + w / 2, y_render ph y h + h / 2) := by
    intro r
    rw [localToPage_normal]
    simp
  refine ⟨hcenter rot, fun rot2 => (hcenter rot).trans (hcenter rot2).symm, ?_, ?_, ?_⟩
  · rw [localToPage_normal]
    have hz : deg2rad 0 = 0 := by simp [deg2rad]
    rw [hz]
    simp only [neg_zero, Real.cos_zero, Real.sin_zero, Prod.mk.injEq]
    constructor <;> ring
  · intro p
    rw [localToPage_normal]
    dsimp only
    linear_combination (p.1 ^ 2 + p.2 ^ 2) * Real.sin_sq_add_cos_sq (-(deg2rad rot))
  · intro p
    rw [localToPage_normal]
    have hpi : deg2rad 180 = Real.pi := by
      unfold deg2rad
      ring
    rw [hpi]
    rw [Real.cos_neg, Real.sin_neg, Real.cos_pi, Real.sin_pi]
    simp only [Prod.mk.injEq]
    constructor <;> ring

/-! Helper lemmas about the webhook retry loop. -/

theorem range_pow_shift (a n : ℕ) :
    (List.range (n + 1)).map (fun i => 2 ^ (a + i)) =
      2 ^ a :: (List.range n).map (fun i => 2 ^ (a + 1 + i)) := by
  simp only [List.range_succ_eq_map, List.map_cons, List.map_map, Nat.add_zero]
  congr 1
  apply List.map_congr_left
  intro i hi
  simp only [Function.comp]
  congr 1
  omega

theorem retryGo_step_success (responses : ℕ → Option ℕ) (a n : ℕ)
    (hs : send_webhook (responses a) = true) :
    retryGo responses a (n + 1) = (true, []) := by
  simp [retryGo, hs]

theorem retryGo_step_fail (responses : ℕ → Option ℕ) (a n : ℕ)
    (hf : send_webhook (responses a) = false) (hn : n ≠ 0) :
    retryGo responses a (n + 1) =
      ((retryGo responses (a + 1) n).1,
        2 ^ a :: (retryGo responses (a + 1) n).2) := by
  simp [retryGo, hf, hn]

theorem retryGo_one_fail (responses : ℕ → Option ℕ) (a : ℕ)
    (hf : send_webhook (responses a) = false) :
    retryGo responses a 1 = (false, []) := by
  simp [retryGo, hf]

theorem retryGo_first_success (responses : ℕ → Option ℕ) :
    ∀ (k a j : ℕ), j < k →
      (∀ i, i < j → send_webhook (responses (a + i)) = false) →
      send_webhook (responses (a + j)) = true →
      retryGo responses a k = (true, (List.range j).map (fun i => 2 ^ (a + i))) := by
  intro k
  induction k with
  | zero => intro a j hj _ _; omega
  | succ n ih =>
    intro a j hj hfail hsucc
    cases j with
    | zero =>
      have hs : send_webhook (responses a) = true := by simpa using hsucc
      simp [retryGo_step_success responses a n hs]
    | succ j2 =>
      have hf0 : send_webhook (responses a) = false := by
        simpa using hfail 0 (by omega)
      have hn : n ≠ 0 := by omega
      have hrec := ih (a + 1) j2 (by omega)
        (fun i hi => by
          rw [show a + 1 + i = a + (i + 1) from by omega]
          exact hfail (i + 1) (by omega))
        (by
          rw [show a + 1 + j2 = a + (j2 + 1) from by omega]
          exact hsucc)
      rw [retryGo_step_fail responses a n hf0 hn, hrec, range_pow_shift]

theorem retryGo_all_fail (responses : ℕ → Option ℕ) :
    ∀ (k a : ℕ), (∀ i, i < k → send_webhook (responses (a + i)) = false) →
      retryGo responses a k =
        (false, (List.range (k - 1)).map (fun i => 2 ^ (a + i))) := by
  intro k
  induction k with
  | zero => intro a _; simp [retryGo]
  | succ n ih =>
    intro a hfail
    have hf0 : send_webhook (responses a) = false := by
      simpa using hfail 0 (by omega)
    cases hn : n with
    | zero =>
      subst hn
      rw [retryGo_one_fail responses a hf0]
      simp
    | succ n2 =>
      subst hn
      have hrec := ih (a + 1) (fun i hi => by
        rw [show a + 1 + i = a + (i + 1) from by omega]
        exact hfail (i + 1) (by omega))
      rw [retryGo_step_fail responses a (n2 + 1) hf0 (by omega), hrec]
      simp only [Nat.succ_sub_one]
      rw [range_pow_shift]

/-! Helper lemmas about the storage state. -/

theorem mem_write_file_self (st : Storage) (q : String) :
    q ∈ (write_file st q).files := by
  unfold write_file
  by_cases h : q ∈ st.files
  · rw [if_pos h]
    exact h
  · simp [h]

theorem not_mem_delete_branch (st : Storage) (q : String) :
    q ∉ (if file_exists st q then delete_file st q else st).files := by
  by_cases h : file_exists st q
  · rw [if_pos h]
    simp [delete_file]
  · rw [if_neg h]
    intro hmem
    exact absurd (by simpa [file_exists] using hmem) (by simpa [file_exists] using h)

theorem mem_delete_branch_of_ne (st : Storage) (q r : String) (hne : r ≠ q)
    (h : r ∈ st.files) :
    r ∈ (if file_exists st q then delete_file st q else st).files := by
  by_cases hex : file_exists st q
  · rw [if_pos hex]
    simp [delete_file, h, hne]
  · rw [if_neg hex]
    exact h

theorem not_mem_delete_temp (st : Storage) (sid : ℕ) :
    sid ∉ (delete_session_temp_dir st sid).tempDirs := by
  simp [delete_session_temp_dir]

/-- C6: a commit against a session that is not `active` fails with the
access error raised before any compositing, leaving the session row and
the storage state untouched; a commit against an active session past its
expiry records the expiry and fails likewise with storage untouched; and
a commit can only return a success when the session was active with a
matching token and its expiry had not passed. -/
theorem C6_commit_requires_active (now : Int) (sid file_id : ℕ) (token : String)
    (s : EditSessionRec) (dbfile : Option FileRec) (wok : Bool) (st : Storage) :
    (s.status ≠ "active" →
      commit_session now sid file_id token s dbfile wok st =
        (s, st, Except.error CommitError.notFound)) ∧
    (s.status = "active" → s.session_token = token → s.expires_at < now →
      commit_session now sid file_id token s dbfile wok st =
        ({ s with status := "expired" }, st, Except.error CommitError.gone)) ∧
    (∀ s2 st2 p,
      commit_session now sid file_id token s dbfile wok st =
        (s2, st2, Except.ok p) →
      s.status = "active" ∧ s.session_token = token ∧ now ≤ s.expires_at) := by
  refine ⟨?_, ?_, ?_⟩
  · intro h
    have hcond : ¬ (s.status = "active" ∧ s.session_token = token) :=
      fun hc => h hc.1
    simp [commit_session, verify_session_token, hcond]
  · intro h1 h2 h3
    simp [commit_session, verify_session_token, h1, h2, h3]
  · intro s2 st2 p hc
    by_cases h1 : s.status = "active" ∧ s.session_token = token
    · by_cases h2 : s.expires_at < now
      · exfalso
        simp [commit_session, verify_session_token, h1, h2] at hc
      · exact ⟨h1.1, h1.2, by omega⟩
    · exfalso
      simp [commit_session, verify_session_token, h1] at hc

/-- C6 witness: committing the completed session `c6sess` fails with the
access error and leaves the storage untouched. -/
theorem C6_witness :
    commit_session 0 7 3 ("tok") c6sess none true c6st =
      (c6sess, c6st, Except.error CommitError.notFound) := by
  exact (C6_commit_requires_active 0 7 3 ("tok") c6sess none true c6st).1
    (by decide)

/-- C7: an access to an active session with a matching token past its
expiry persists the `expired` status and rejects the access with the
expiry error; every later access to the expired row is rejected without
any further write, whatever the clock or token. -/
theorem C7_lazy_expiry_idempotent (now : Int) (s : EditSessionRec)
    (token : String)
    (h1 : s.status = "active") (h2 : s.session_token = token)
    (h3 : s.expires_at < now) :
    verify_session_token now s token =
      ({ s with status := "expired" }, Except.error AccessError.gone) ∧
    (∀ (now2 : Int) (token2 : String),
      verify_session_token now2 { s with status := "expired" } token2 =
        ({ s with status := "expired" }, Except.error AccessError.notFound)) := by
  constructor
  · simp [verify_session_token, h1, h2, h3]
  · intro now2 token2
    have hcond : ¬ (({ s with status := "expired" } : EditSessionRec).status =
        "active" ∧
        ({ s with status := "expired" } : EditSessionRec).session_token =
          token2) := by
      intro hc
      have hx : ("expired" : String) = "active" := hc.1
      exact absurd hx (by decide)
    simp [verify_session_token, hcond]

/-- C7 witness: the session `c7sess` expires at 10; an access at 100
persists the expired status with the expiry error, and a repeated access
at 200 with the same token is rejected without a further write. -/
theorem C7_witness :
    verify_session_token 100 c7sess ("tok") =
      ({ c7sess with status := "expired" }, Except.error AccessError.gone) ∧
    verify_session_token 200 { c7sess with status := "expired" } ("tok") =
      ({ c7sess with status := "expired" }, Except.error AccessError.notFound) := by
  have h := C7_lazy_expiry_idempotent 100 c7sess ("tok") (by decide) (by decide)
    (by decide)
  exact ⟨h.1, h.2 200 ("tok")⟩

/-- C9 counterexample: the HTTP status 206 lies in the 2xx class, yet a
single webhook attempt returning it counts as a failure, because the code
compares against the fixed list 200, 201, 202, 204 rather than the whole
class. -/
theorem C9_counterexample :
    send_webhook (some 206) = false ∧ 200 ≤ 206 ∧ 206 < 300 := by
  exact ⟨by decide, by decide, by decide⟩

/-- C9 (amended): one attempt succeeds exactly when the response status is
200, 201, 202 or 204 (a timeout or network error is a failure); the
default attempt count is 3; the retry loop returns success at the first
successful attempt, sleeping `2 ^ attempt` seconds after each preceding
failed attempt, and returns failure after exhausting all attempts with
sleeps 1, 2, 4, ... between consecutive failures. -/
theorem C9_webhook_retry (responses : ℕ → Option ℕ) (m : Option ℕ) (j : ℕ) :
    (∀ c, send_webhook (some c) = true ↔
      (c = 200 ∨ c = 201 ∨ c = 202 ∨ c = 204)) ∧
    send_webhook none = false ∧
    effectiveRetries none = 3 ∧
    (j < effectiveRetries m →
      (∀ i, i < j → send_webhook (responses i) = false) →
      send_webhook (responses j) = true →
      retry_webhook responses m =
        (true, (List.range j).map (fun i => 2 ^ i))) ∧
    ((∀ i, i < effectiveRetries m → send_webhook (responses i) = false) →
      retry_webhook responses m =
        (false, (List.range (effectiveRetries m - 1)).map (fun i => 2 ^ i))) := by
  refine ⟨?_, rfl, rfl, ?_, ?_⟩
  · intro c
    simp [send_webhook]
  · intro hj hfail hsucc
    unfold retry_webhook
    have h := retryGo_first_success responses (effectiveRetries m) 0 j hj
      (fun i hi => by simpa using hfail i hi)
      (by simpa using hsucc)
    simpa using h
  · intro hfail
    unfold retry_webhook
    have h := retryGo_all_fail responses (effectiveRetries m) 0
      (fun i hi => by simpa using hfail i hi)
    simpa using h

/-- C9 witness: with failures on attempts 0 and 1 and a 200 on attempt 2,
the default retry succeeds after exactly 3 attempts with sleeps of 1 then
2 seconds. -/
theorem C9_witness :
    retry_webhook (fun i => if i = 2 then some 200 else some 500) none =
      (true, [1, 2]) := by
  have h := (C9_webhook_retry (fun i => if i = 2 then some 200 else some 500)
    none 2).2.2.2.1 (by decide) (by decide) (by decide)
  exact h.trans (by decide)

/-- C10: a successful commit returns the output document path, and its
final storage state no longer contains the original uploaded source
document nor the temp directory of the session, while the freshly written
output document is present; the persisted session row is `completed`.
These deletions happen inside the commit handler itself, before it
returns. -/
theorem C10_commit_deletes_source (now : Int) (sid file_id : ℕ) (token : String)
    (s : EditSessionRec) (f : FileRec) (wok : Bool) (st : Storage)
    (s2 : EditSessionRec) (st2 : Storage) (p : String)
    (hc : commit_session now sid file_id token s (some f) wok st =
      (s2, st2, Except.ok p)) :
    p = get_edited_path sid ("edited_" ++ f.filename) ∧
    f.file_path ∉ st2.files ∧
    sid ∉ st2.tempDirs ∧
    (f.file_path ≠ p → p ∈ st2.files) ∧
    s2.status = "completed" := by
  by_cases h1 : s.status = "active" ∧ s.session_token = token
  · by_cases h2 : s.expires_at < now
    · exfalso
      simp [commit_session, verify_session_token, h1, h2] at hc
    · by_cases h3 : s.file_id = file_id
      · simp [commit_session, verify_session_token, h1, h2, h3] at hc
        obtain ⟨hs2, hst2, hp⟩ := hc
        subst hs2
        subst hst2
        subst hp
        refine ⟨rfl, ?_, ?_, ?_, ?_⟩
        · simp only [delete_session_temp_dir]
          exact not_mem_delete_branch _ _
        · exact not_mem_delete_temp _ _
        · intro hne
          simp only [delete_session_temp_dir]
          exact mem_delete_branch_of_ne _ _ _ (Ne.symm hne)
            (mem_write_file_self st _)
        · cases hcb : s.callback_url <;> simp [hcb]
      · exfalso
        simp [commit_session, verify_session_token, h1, h2, h3] at hc
  · exfalso
    simp [commit_session, verify_session_token, h1] at hc

/-- C10 witness: committing the active session 7 writes the output
document, deletes the uploaded source and removes the temp directory of
the session before returning. -/
theorem C10_witness :
    commit_session 50 7 3 ("tok") c10sess (some c10file) true c10st =
      ({ c10sess with status := "completed", completed_at := some 50, edited_file_path := some ("edited/7_edited_a.pdf"), callback_status := some ("success") },
        Storage.mk ["edited/7_edited_a.pdf"] [],
        Except.ok ("edited/7_edited_a.pdf")) ∧
    ("uploads/3_a.pdf") ∉ (Storage.mk ["edited/7_edited_a.pdf"] []).files ∧
    7 ∉ (Storage.mk ["edited/7_edited_a.pdf"] ([] : List ℕ)).tempDirs := by
  have h := C10_commit_deletes_source 50 7 3 ("tok") c10sess c10file true c10st
    ({ c10sess with status := "completed", completed_at := some 50, edited_file_path := some ("edited/7_edited_a.pdf"), callback_status := some ("success") })
    (Storage.mk ["edited/7_edited_a.pdf"] []) ("edited/7_edited_a.pdf") rfl
  exact ⟨rfl, h.2.1, h.2.2.1⟩

end PdfEditor
